import Mathlib

/-!
# Verification of the whatsapp-bot adaptive request-dispatch pipeline

Shallow embedding of the core components of the `whatsapp-gpt-bot` Go
repository, together with proofs settling the frozen specification claims.

Modelling conventions:
* `time.Duration` (int64 nanoseconds) and `time.Time` instants are modelled as
  `Int` nanoseconds; the float64 EWMA arithmetic of the timeout manager is
  modelled exactly over `ℚ`.
* Each Go method that mutates a receiver is a pure function from the old state
  to the new state (plus its return value).
* Cross-goroutine mutual exclusion (every Go method here runs under its
  component's single lock) is modelled by making each locked critical section
  one atomic step of the corresponding state-transition function.
-/

/-! ## Response cache (`cache` package, `cache.go`)

The Go cache keeps a `map[string]*list.Element` plus a `container/list`
recency list (`evictList`, front = most recently used) whose elements hold
`*CacheEntry`.  Since the map is keyed by `Key` and the list elements are
exactly the map's values, the pair is modelled as the recency-ordered list of
entries alone; map lookup is `find?` on the key.  The prometheus hit/miss
counters are carried as plain naturals. -/

structure CacheEntry where
  key : String
  value : Int
  timestamp : Int
  ttl : Int
  useCount : Int
deriving Repr, DecidableEq

structure Cache where
  /-- `evictList`, front = most recently used, back = least recently used. -/
  entries : List CacheEntry
  capacity : Nat
  hits : Nat
  misses : Nat
deriving Repr, DecidableEq

/-- The expiry test used by `Cache.Get` and `cleanupExpired`:
`entry.TTL > 0 && time.Since(entry.Timestamp) > entry.TTL`. -/
def isExpired (now : Int) (e : CacheEntry) : Bool :=
  0 < e.ttl && e.ttl < now - e.timestamp

/-- `Cache.Get`: lookup; an expired hit is evicted and counted as a miss; an
unexpired hit is promoted to the front (`MoveToFront`) with `UseCount++`. -/
def Cache.get (c : Cache) (now : Int) (key : String) : Option Int × Cache :=
  match c.entries.find? (fun e => e.key == key) with
  | some e =>
    if isExpired now e then
      (none, { c with entries := c.entries.eraseP (fun x => x.key == key),
                      misses := c.misses + 1 })
    else
      (some e.value,
       { c with entries := { e with useCount := e.useCount + 1 } ::
                            c.entries.eraseP (fun x => x.key == key),
                hits := c.hits + 1 })
  | none => (none, { c with misses := c.misses + 1 })

/-- `Cache.Set`: an existing key is moved to the front and overwritten in
place (value/timestamp/TTL refreshed, `UseCount` kept); a new key is pushed to
the front and, if the list now exceeds `capacity`, the back element (the LRU
entry) is evicted (`evictLRU`). -/
def Cache.set (c : Cache) (now : Int) (key : String) (v : Int) (ttl : Int) : Cache :=
  match c.entries.find? (fun e => e.key == key) with
  | some e =>
    { c with entries := { e with value := v, timestamp := now, ttl := ttl } ::
                         c.entries.eraseP (fun x => x.key == key) }
  | none =>
    let entries' := ({ key := key, value := v, timestamp := now, ttl := ttl,
                       useCount := 0 } : CacheEntry) :: c.entries
    if c.capacity < entries'.length then { c with entries := entries'.dropLast }
    else { c with entries := entries' }

/-- `Cache.Clear`: fresh map, re-initialised list. -/
def Cache.clear (c : Cache) : Cache := { c with entries := [] }

/-- `Cache.Size`: length of the recency list. -/
def Cache.size (c : Cache) : Nat := c.entries.length

/-! ## Adaptive timeout manager (`whatsapp` package, bot file)

`averageResponseTime` is a `time.Duration`; the update mixes it with the new
sample in `float64` arithmetic.  Durations are modelled as exact rationals
(nanoseconds). -/

def MIN_TIMEOUT : ℚ := 10 * 1000000000

def INITIAL_TIMEOUT : ℚ := 15 * 1000000000

def MAX_TIMEOUT : ℚ := 60 * 1000000000

def MAX_HISTORY : Nat := 10

def MAX_RETRIES : Nat := 2

/-- `TimeoutManager.updateResponseTime`: the zero average (Go zero value,
meaning no sample recorded yet) is replaced by the sample itself; otherwise
`avg = avg*0.7 + duration*0.3`. -/
def updateResponseTime (averageResponseTime d : ℚ) : ℚ :=
  if averageResponseTime = 0 then d
  else averageResponseTime * (7 / 10) + d * (3 / 10)

/-- The average after feeding a list of latency samples into
`updateResponseTime`, starting from the zero value of a fresh manager. -/
def ewmaRun (samples : List ℚ) : ℚ :=
  samples.foldl updateResponseTime 0

/-- `TimeoutManager.getOptimalTimeout`: the fixed `INITIAL_TIMEOUT` while no
sample exists, otherwise `averageResponseTime * 2` clamped below by
`INITIAL_TIMEOUT` and above by `MAX_TIMEOUT`. -/
def getOptimalTimeout (averageResponseTime : ℚ) : ℚ :=
  if averageResponseTime = 0 then INITIAL_TIMEOUT
  else
    let timeout := averageResponseTime * 2
    if timeout < INITIAL_TIMEOUT then INITIAL_TIMEOUT
    else if timeout > MAX_TIMEOUT then MAX_TIMEOUT
    else timeout

example : getOptimalTimeout 0 = INITIAL_TIMEOUT := by
  norm_num [getOptimalTimeout]

example : getOptimalTimeout (6 * 1000000000) = INITIAL_TIMEOUT := by
  norm_num [getOptimalTimeout, INITIAL_TIMEOUT, MAX_TIMEOUT]

example : getOptimalTimeout (20 * 1000000000) = 40 * 1000000000 := by
  norm_num [getOptimalTimeout, INITIAL_TIMEOUT, MAX_TIMEOUT]

example : ewmaRun [2, 12] = 5 := by
  norm_num [ewmaRun, updateResponseTime]

/-! ## Conversation history (`whatsapp` package, bot file)

`Bot.makeAIRequest` first trims `conv.Messages` to its last `MAX_HISTORY`
elements when it is longer than `MAX_HISTORY`, then appends the user message;
`Bot.handleTextMessage` appends the assistant message after a successful
response. -/

structure BotMessage where
  role : String
  content : String
  time : Int
deriving Repr, DecidableEq

/-- The history-trimming step at the top of `Bot.makeAIRequest`:
`conv.Messages = conv.Messages[len(conv.Messages)-MAX_HISTORY:]` when
`len(conv.Messages) > MAX_HISTORY`. -/
def trimHistory (msgs : List BotMessage) : List BotMessage :=
  if msgs.length > MAX_HISTORY then msgs.drop (msgs.length - MAX_HISTORY) else msgs

/-- The conversation-state effect of `Bot.makeAIRequest` on the stored
history: trim, then append the user message. -/
def appendUserMessage (msgs : List BotMessage) (userMsg : BotMessage) : List BotMessage :=
  trimHistory msgs ++ [userMsg]

/-- One complete turn of `Bot.handleTextMessage` on the stored history: the
user append performed inside `makeAIRequest`, then, after a successful
response, the assistant append. -/
def completeTurn (msgs : List BotMessage) (userMsg assistantMsg : BotMessage) :
    List BotMessage :=
  appendUserMessage msgs userMsg ++ [assistantMsg]

/-- The history replacement performed when `Bot.summarizeConversation`
succeeds: `conv.Messages = conv.Messages[len(conv.Messages)-2:]`. -/
def summarizeKeepLast (msgs : List BotMessage) : List BotMessage :=
  msgs.drop (msgs.length - 2)

/-! ## Backend errors and the retry loop (`whatsapp` package, bot file)

`makeAIRequest` can fail with `context.DeadlineExceeded` (deadline branch),
with a transport/decoding error, or with `fmt.Errorf("no response from AI")`
when the decoded reply has an empty `choices` list.  `isTimeoutError` tests
the error against `context.DeadlineExceeded` and the substrings `"timeout"`
and `"deadline exceeded"` of its message. -/

inductive ReqError where
  | deadlineExceeded : ReqError
  | errorString : String → ReqError
deriving Repr, DecidableEq, BEq

/-- `err.Error()` for the modelled errors; `context.DeadlineExceeded.Error()`
is `"context deadline exceeded"`. -/
def ReqError.message : ReqError → String
  | .deadlineExceeded => "context deadline exceeded"
  | .errorString s => s

/-- The error produced by the empty-`choices` branch of `makeAIRequest`. -/
def noResponseError : ReqError := .errorString "no response from AI"

/-- `strings.Contains`: substring containment, via list-infix decidability. -/
def containsSubstring (s pat : String) : Bool :=
  decide (pat.toList <:+: s.toList)

/-- `isTimeoutError`: nil errors are not timeouts; otherwise the error is a
timeout iff it is `context.DeadlineExceeded` or its message contains
`"timeout"` or `"deadline exceeded"`. -/
def isTimeoutError : Option ReqError → Bool
  | none => false
  | some err =>
    err == ReqError.deadlineExceeded
      || containsSubstring err.message "timeout"
      || containsSubstring err.message "deadline exceeded"

/-- Outcome of the retry loop in `Bot.handleTextMessage`: a successful
response, or abortion with a user-facing failure notice; `attempts` counts the
`makeAIRequest` calls that were made. -/
inductive LoopResult where
  | success (attempts : Nat) (response : String)
  | aborted (attempts : Nat) (err : ReqError)
deriving Repr, DecidableEq

/-- The retry loop of `Bot.handleTextMessage`
(`for retries := 0; retries <= MAX_RETRIES; retries++`), parameterised by the
outcome of attempt number `retries`.  `none` corresponds to the `for`
condition failing (unreachable when started at 0). -/
def retryLoop (outcome : Nat → Except ReqError String) (retries : Nat) :
    Option LoopResult :=
  if _h : retries ≤ MAX_RETRIES then
    match outcome retries with
    | .ok s => some (.success (retries + 1) s)
    | .error e =>
      if retries == MAX_RETRIES || !isTimeoutError (some e) then
        some (.aborted (retries + 1) e)
      else retryLoop outcome (retries + 1)
  else none
termination_by MAX_RETRIES + 1 - retries
decreasing_by simp_wf; omega

/-- The timeout-escalation step applied before each retry (`retries > 0`):
`timeout = timeout * 1.5`, clamped to `MAX_TIMEOUT`. -/
def escalateTimeout (timeout : ℚ) : ℚ :=
  let t := timeout * (3 / 2)
  if t > MAX_TIMEOUT then MAX_TIMEOUT else t

example : isTimeoutError (some noResponseError) = false := by decide
example : isTimeoutError (some ReqError.deadlineExceeded) = true := by decide
example : isTimeoutError (some (ReqError.errorString "i/o timeout")) = true := by decide

/-! ## Batching queue (`queue` package, `queue.go`)

The open-batch map `map[types.MessageType]*MessageBatch` is modelled as a
function `MessageType → Option (List Message)` (`none` = key absent); a
`MessageBatch` is its ordered message list.  Each of `addToBatch`,
`processBatch` and `processBatches` runs under the single `batchMutex`, so
each is one atomic step; a flush hands the removed message list to the worker
pool, modelled as emitting it. -/

inductive MessageType where
  | text
  | image
  | document
deriving Repr, DecidableEq

structure Message where
  id : String
  type : MessageType
  content : String
  timestamp : Int
  chatID : String
deriving Repr, DecidableEq

/-- The open-batch map of a `Queue`. -/
def Batches : Type := MessageType → Option (List Message)

/-- `Queue.processBatch(msgType)`: if a batch for the type exists and is
nonempty, submit its message list to the worker pool (the emitted component)
and delete the map entry; otherwise do nothing. -/
def processBatch (B : Batches) (t : MessageType) :
    Batches × Option (List Message) :=
  match B t with
  | some msgs =>
    if 0 < msgs.length then
      ((fun u => if u = t then none else B u), some msgs)
    else (B, none)
  | none => (B, none)

/-- `Queue.addToBatch(msg)`: append to the existing batch for `msg.Type` and,
if the batch has reached `batchSize`, flush it via `processBatch`; a missing
batch is created holding just `msg`, with no size check. -/
def addToBatch (batchSize : Nat) (B : Batches) (msg : Message) :
    Batches × Option (List Message) :=
  match B msg.type with
  | some msgs =>
    let B' : Batches := fun t => if t = msg.type then some (msgs ++ [msg]) else B t
    if batchSize ≤ msgs.length + 1 then processBatch B' msg.type
    else (B', none)
  | none => ((fun t => if t = msg.type then some [msg] else B t), none)

/-- The three values of `types.MessageType`; `Queue.processBatches` iterates
over the keys of the open-batch map, and `processBatch` on an absent key is a
no-op, so iterating over all types is equivalent (per-type) to iterating over
the present keys. -/
def allMessageTypes : List MessageType := [.text, .image, .document]

/-- The iteration inside `Queue.processBatches`, threading the map and
accumulating the flushed batches in submission order. -/
def processBatchesAux (l : List MessageType) (B : Batches)
    (acc : List (MessageType × List Message)) :
    Batches × List (MessageType × List Message) :=
  match l with
  | [] => (B, acc)
  | t :: rest =>
    let pr := processBatch B t
    processBatchesAux rest pr.1
      (acc ++ (match pr.2 with | some msgs => [(t, msgs)] | none => []))

/-- `Queue.processBatches`: flush every currently open batch (timer tick). -/
def processBatches (B : Batches) : Batches × List (MessageType × List Message) :=
  processBatchesAux allMessageTypes B []

/-- An event of the queue's `batchProcessor` select loop: a message received
from the intake channel, or a `batchWindow` ticker tick. -/
inductive QueueEvent where
  | arrive (msg : Message)
  | tick
deriving Repr, DecidableEq

structure QueueState where
  batches : Batches
  /-- Batches handed to the worker pool so far, in submission order. -/
  flushed : List (MessageType × List Message)

def initQueueState : QueueState := ⟨fun _ => none, []⟩

/-- One iteration of `Queue.batchProcessor`. -/
def queueStep (batchSize : Nat) (s : QueueState) (e : QueueEvent) : QueueState :=
  match e with
  | .arrive msg =>
    let pr := addToBatch batchSize s.batches msg
    { batches := pr.1,
      flushed := s.flushed ++
        (match pr.2 with | some msgs => [(msg.type, msgs)] | none => []) }
  | .tick =>
    let pr := processBatches s.batches
    { batches := pr.1, flushed := s.flushed ++ pr.2 }

/-- Running the queue from its initial (empty) state over a list of events. -/
def queueRun (batchSize : Nat) (events : List QueueEvent) : QueueState :=
  events.foldl (queueStep batchSize) initQueueState

/-- All messages of type `t` flushed so far, in flush-then-batch order. -/
def flushedOf (t : MessageType) (fl : List (MessageType × List Message)) :
    List Message :=
  ((fl.filter (fun p => p.1 == t)).map (fun p => p.2)).flatten

/-- The messages of type `t` that arrived, in arrival order. -/
def arrivalsOf (t : MessageType) (events : List QueueEvent) : List Message :=
  events.filterMap (fun e =>
    match e with
    | .arrive m => if m.type = t then some m else none
    | .tick => none)

/-! ## Per-sender rate limiter (`whatsapp` package, `bot.go`)

`RateLimiter` maps sender ids to `*rate.Limiter` values from
`golang.org/x/time/rate`, creating one lazily with `(rl.limit, rl.burst)` on
first sight of a sender, under a single mutex. -/

/-- Modelled from the spec: the per-sender token bucket is a
`golang.org/x/time/rate.Limiter`, external library code not in this
repository.  Per the spec's token-bucket description (§4.1, glossary): the
bucket holds at most `burst` tokens, a bucket made by `rate.NewLimiter` starts
full, tokens refill at `limit` tokens per second, and `Allow` consumes one
token and reports `true` when a token is available, else consumes nothing and
reports `false`.  Time is in seconds, as a rational. -/
structure Limiter where
  tokens : ℚ
  lastTime : ℚ
deriving Repr, DecidableEq

/-- Refill of a bucket observed at time `now`, capped at `burst`. -/
def Limiter.advance (l : Limiter) (limit : ℚ) (burst : ℤ) (now : ℚ) : ℚ :=
  min (burst : ℚ) (l.tokens + limit * (now - l.lastTime))

/-- `rate.Limiter.Allow` at time `now`. -/
def Limiter.allowAt (l : Limiter) (limit : ℚ) (burst : ℤ) (now : ℚ) :
    Bool × Limiter :=
  let toks := l.advance limit burst now
  if 1 ≤ toks then (true, { tokens := toks - 1, lastTime := now })
  else (false, l)

/-- A bucket as created by `rate.NewLimiter` at time `now`: full burst. -/
def freshLimiter (burst : ℤ) (now : ℚ) : Limiter :=
  { tokens := (burst : ℚ), lastTime := now }

structure RateLimiter where
  visitors : String → Option Limiter
  limit : ℚ
  burst : ℤ

/-- `RateLimiter.Allow(userID)` observed at time `now`: look up the sender's
bucket, creating (and storing) a fresh full one if absent, then consume a
token if available.  It returns only a `Bool` — there is no error outcome. -/
def RateLimiter.Allow (rl : RateLimiter) (now : ℚ) (userID : String) :
    Bool × RateLimiter :=
  let limiter := match rl.visitors userID with
    | some l => l
    | none => freshLimiter rl.burst now
  let pr := limiter.allowAt rl.limit rl.burst now
  (pr.1, { rl with visitors := fun uid =>
    if uid = userID then some pr.2 else rl.visitors uid })

example :
    ((RateLimiter.Allow ⟨fun _ => none, 1 / 2, 1⟩ 0 "a").1,
      ((RateLimiter.Allow ⟨fun _ => none, 1 / 2, 1⟩ 0 "a").2.Allow 1 "a").1) =
      (true, false) := by
  norm_num [RateLimiter.Allow, Limiter.allowAt, Limiter.advance, freshLimiter]

/-! ## Periodic cache sweep constants (`Bot.cleanupCache`, `Bot.cacheResponse`) -/

/-- The `Bot.cleanupCache` ticker interval (30 minutes), in nanoseconds. -/
def CLEANUP_INTERVAL : Int := 30 * 60 * 1000000000

/-- The TTL that `Bot.cacheResponse` gives every cached response
(24 hours), in nanoseconds. -/
def RESPONSE_CACHE_TTL : Int := 24 * 3600 * 1000000000

/-- One tick of the `Bot.cleanupCache` loop: `b.cache.Clear()`. -/
def cleanupCacheTick (c : Cache) : Cache := c.clear

/-! # Claim theorems -/

/-- C1, counterexample: with an average of 6 s, twice the average (12 s) lies
between `MIN_TIMEOUT` (10 s) and `MAX_TIMEOUT` (60 s), so the claim requires
`getOptimalTimeout` to return exactly 12 s; the code returns
`INITIAL_TIMEOUT` (15 s), because its lower clamp is `INITIAL_TIMEOUT`, not
`MIN_TIMEOUT`. -/
theorem C1_counterexample :
    MIN_TIMEOUT ≤ 2 * (6 * 1000000000 : ℚ) ∧
    2 * (6 * 1000000000 : ℚ) ≤ MAX_TIMEOUT ∧
    getOptimalTimeout (6 * 1000000000) = INITIAL_TIMEOUT ∧
    getOptimalTimeout (6 * 1000000000) ≠ 2 * (6 * 1000000000) := by
  norm_num [getOptimalTimeout, MIN_TIMEOUT, INITIAL_TIMEOUT, MAX_TIMEOUT]

/-- C1 (amended): with no sample recorded (zero average), `getOptimalTimeout`
returns the fixed `INITIAL_TIMEOUT`; otherwise it returns twice the smoothed
average clamped between `INITIAL_TIMEOUT` and `MAX_TIMEOUT`, so the result
equals exactly `2 * avg` whenever `INITIAL_TIMEOUT ≤ 2 * avg ≤ MAX_TIMEOUT`. -/
theorem C1_getOptimalTimeout_clamp :
    getOptimalTimeout 0 = INITIAL_TIMEOUT ∧
    ∀ avg : ℚ, avg ≠ 0 →
      getOptimalTimeout avg = max INITIAL_TIMEOUT (min (2 * avg) MAX_TIMEOUT) ∧
      (INITIAL_TIMEOUT ≤ 2 * avg → 2 * avg ≤ MAX_TIMEOUT →
        getOptimalTimeout avg = 2 * avg) := by
  have hIM : INITIAL_TIMEOUT ≤ MAX_TIMEOUT := by
    norm_num [INITIAL_TIMEOUT, MAX_TIMEOUT]
  constructor
  · simp [getOptimalTimeout]
  · intro avg h
    unfold getOptimalTimeout
    rw [if_neg h]
    simp only [mul_comm avg 2]
    constructor
    · split_ifs with h1 h2 <;>
        simp [max_def, min_def] <;> split_ifs <;> linarith
    · intro h1 h2
      split_ifs with h3 h4 <;> first | rfl | linarith

/-- C1 witness: a nonzero average of 20 s has `2 * avg = 40` s inside the
clamp window, and the theorem yields exactly `2 * avg`. -/
theorem C1_witness :
    getOptimalTimeout (20 * 1000000000) = 2 * (20 * 1000000000 : ℚ) :=
  (C1_getOptimalTimeout_clamp.2 (20 * 1000000000) (by norm_num)).2
    (by norm_num [INITIAL_TIMEOUT]) (by norm_num [MAX_TIMEOUT])

/-- C2, counterexample: when every attempt returns the empty-`choices` error
`"no response from AI"`, the retry loop aborts after exactly one attempt
(`isTimeoutError` does not recognise it), while the claim requires it to be
retried up to `MAX_RETRIES = 2` additional times like a timeout. -/
theorem C2_counterexample :
    isTimeoutError (some noResponseError) = false ∧
    0 < MAX_RETRIES ∧
    retryLoop (fun _ => Except.error noResponseError) 0 =
      some (LoopResult.aborted 1 noResponseError) := by
  refine ⟨by decide, by decide, ?_⟩
  rw [retryLoop]
  decide

/-- C2 (amended): a well-formed reply with an empty `choices` list yields the
error `"no response from AI"`, which `isTimeoutError` classifies as
non-transient, so `Bot.handleTextMessage` aborts after the first attempt
(reporting a user-facing failure) instead of retrying. -/
theorem C2_noChoices_aborts_first_attempt :
    isTimeoutError (some noResponseError) = false ∧
    ∀ outcome : Nat → Except ReqError String,
      outcome 0 = Except.error noResponseError →
      retryLoop outcome 0 = some (LoopResult.aborted 1 noResponseError) := by
  refine ⟨by decide, ?_⟩
  intro outcome h
  rw [retryLoop, h]
  have hc : (0 == MAX_RETRIES || !isTimeoutError (some noResponseError)) = true := by
    decide
  simp +decide [hc]

/-- C2 witness: the amended theorem applied to the constant
empty-`choices` backend. -/
theorem C2_witness :
    retryLoop (fun _ => Except.error noResponseError) 0 =
      some (LoopResult.aborted 1 noResponseError) :=
  C2_noChoices_aborts_first_attempt.2 (fun _ => Except.error noResponseError) rfl

/-- A concrete message used in counterexamples and witnesses. -/
def mEx : BotMessage := { role := "user", content := "m", time := 0 }

/-- C3, counterexample: a chat whose history already holds exactly
`MAX_HISTORY = 10` messages is not trimmed (the trim fires only strictly
above `MAX_HISTORY`), so after the user and assistant appends of one complete
turn the history holds 12 messages, exceeding the bound. -/
theorem C3_counterexample :
    (completeTurn (List.replicate MAX_HISTORY mEx) mEx mEx).length
        = MAX_HISTORY + 2 ∧
    ¬ (completeTurn (List.replicate MAX_HISTORY mEx) mEx mEx).length
        ≤ MAX_HISTORY := by
  constructor <;> decide

/-- C3 (amended): after a complete turn (trim inside `makeAIRequest`, user
append, then assistant append on success) the history length never exceeds
`MAX_HISTORY + 2`; the bound `MAX_HISTORY` itself can be exceeded by the two
appends that follow the trim. -/
theorem C3_history_bound (msgs : List BotMessage)
    (userMsg assistantMsg : BotMessage) :
    (completeTurn msgs userMsg assistantMsg).length ≤ MAX_HISTORY + 2 := by
  unfold completeTurn appendUserMessage trimHistory
  split_ifs with h
  · simp
    omega
  · simp
    omega

/-- C7: the first recorded latency sample becomes the average directly, and
every later sample `d` moves a positive average `avg` to
`0.7 * avg + 0.3 * d`, i.e. by exactly 30% of the delta `d - avg`.  Latency
samples are `time.Since` measurements of completed HTTP round trips, hence
positive; positivity is what makes the code's zero-average test equivalent to
"no sample recorded yet". -/
theorem C7_ewma :
    (∀ d : ℚ, updateResponseTime 0 d = d) ∧
    (∀ (samples : List ℚ) (d : ℚ), samples ≠ [] → (∀ s ∈ samples, 0 < s) →
      ewmaRun (samples ++ [d]) = (7 / 10) * ewmaRun samples + (3 / 10) * d ∧
      ewmaRun (samples ++ [d]) - ewmaRun samples
          = (3 / 10) * (d - ewmaRun samples)) := by
  have foldl_pos : ∀ (l : List ℚ) (a : ℚ), 0 < a → (∀ s ∈ l, 0 < s) →
      0 < l.foldl updateResponseTime a := by
    intro l
    induction l with
    | nil => intro a ha _; simpa using ha
    | cons s rest ih =>
      intro a ha hall
      simp only [List.foldl_cons]
      apply ih
      · have hs : 0 < s := hall s (by simp)
        unfold updateResponseTime
        rw [if_neg (ne_of_gt ha)]
        linarith
      · intro x hx
        exact hall x (by simp [hx])
  constructor
  · intro d; simp [updateResponseTime]
  · intro samples d hne hall
    have hpos : 0 < ewmaRun samples := by
      match samples, hne with
      | s :: rest, _ =>
        have hs : 0 < s := hall s (by simp)
        have : ewmaRun (s :: rest) = rest.foldl updateResponseTime s := by
          simp [ewmaRun, updateResponseTime]
        rw [this]
        exact foldl_pos rest s hs (fun x hx => hall x (by simp [hx]))
    have h1 : ewmaRun (samples ++ [d]) = updateResponseTime (ewmaRun samples) d := by
      simp [ewmaRun, List.foldl_append]
    rw [h1]
    unfold updateResponseTime
    rw [if_neg (ne_of_gt hpos)]
    constructor <;> ring

/-- C7 witness: samples `[2]` then `12` give
`0.7 * 2 + 0.3 * 12 = 5`, a move of 30% of the delta. -/
theorem C7_witness :
    ewmaRun ([2] ++ [12]) = (7 / 10) * ewmaRun [2] + (3 / 10) * (12 : ℚ) :=
  (C7_ewma.2 [2] 12 (by simp) (by intro s hs; simp at hs; simp [hs])).1

/-- C10: one tick of `Bot.cleanupCache` runs `Clear()` on the response cache:
afterwards `Size()` is 0 and every lookup misses — including keys that were
visible (present and unexpired) immediately before the sweep.  Since the
sweep interval (30 min) is far below the 24 h TTL that `cacheResponse`
assigns, a cached response is observable at most until the next sweep. -/
theorem C10_cleanup_clears_all :
    CLEANUP_INTERVAL < RESPONSE_CACHE_TTL ∧
    (∀ c : Cache, (cleanupCacheTick c).size = 0) ∧
    (∀ (c : Cache) (now : Int) (key : String) (v : Int),
      (c.get now key).1 = some v →
      ((cleanupCacheTick c).get now key).1 = none) := by
  refine ⟨by norm_num [CLEANUP_INTERVAL, RESPONSE_CACHE_TTL], fun c => rfl, ?_⟩
  intro c now key v _h
  simp [cleanupCacheTick, Cache.clear, Cache.get]

/-- C10 witness: a response cached at time 0 with the 24-hour TTL is visible
shortly before a sweep, and gone right after it. -/
theorem C10_witness :
    ((cleanupCacheTick
        { entries := [{ key := "hello", value := 7, timestamp := 0,
                        ttl := RESPONSE_CACHE_TTL, useCount := 0 }],
          capacity := 1000, hits := 0, misses := 0 }).get CLEANUP_INTERVAL
        "hello").1 = none :=
  C10_cleanup_clears_all.2.2
    { entries := [{ key := "hello", value := 7, timestamp := 0,
                    ttl := RESPONSE_CACHE_TTL, useCount := 0 }],
      capacity := 1000, hits := 0, misses := 0 }
    CLEANUP_INTERVAL "hello" 7 (by decide)

/-- `dropLast` distributes over a nonempty tail's cons: evicting the back of
`new :: old` keeps `new` when `old` is nonempty. -/
theorem dropLast_cons_of_ne_nil {α : Type} (a : α) {l : List α} (h : l ≠ []) :
    (a :: l).dropLast = a :: l.dropLast := by
  cases l with
  | nil => exact absurd rfl h
  | cons b t => simp [List.dropLast]

/-- C5: `Size()` never exceeds the configured capacity after a `Get`, a `Set`
or a `Clear` completes, and a `Set` of a new key at full capacity `C ≥ 1`
evicts exactly one entry — the back of the recency list (the
least-recently-used one); every more recently used entry survives in order. -/
theorem C5_capacity_lru :
    ∀ (c : Cache) (now : Int) (key : String) (v ttl : Int),
      (c.size ≤ c.capacity →
        ((c.get now key).2.size ≤ c.capacity ∧
         (c.set now key v ttl).size ≤ c.capacity ∧
         c.clear.size ≤ c.capacity)) ∧
      (c.entries.find? (fun e => e.key == key) = none →
       c.size = c.capacity → 1 ≤ c.capacity →
        (c.set now key v ttl).entries =
          ({ key := key, value := v, timestamp := now, ttl := ttl,
             useCount := 0 } : CacheEntry) :: c.entries.dropLast ∧
        (c.set now key v ttl).size = c.capacity) := by
  intro c now key v ttl
  constructor
  · intro hle
    simp only [Cache.size] at hle
    refine ⟨?_, ?_, ?_⟩
    · unfold Cache.get
      cases hfind : c.entries.find? (fun e => e.key == key) with
      | none => simpa [Cache.size] using hle
      | some e =>
        have hmem := List.mem_of_find?_eq_some hfind
        have hpe := List.find?_some hfind
        by_cases hexp : isExpired now e
        · have hsub : (c.entries.eraseP (fun x => x.key == key)).length
              ≤ c.entries.length :=
            (List.eraseP_sublist c.entries).length_le
          simp only [hexp, if_true]
          simp only [Cache.size]
          omega
        · have hlen : (c.entries.eraseP (fun x => x.key == key)).length + 1
              = c.entries.length :=
            List.length_eraseP_add_one hmem hpe
          simp [hexp, Cache.size]
          omega
    · unfold Cache.set
      cases hfind : c.entries.find? (fun e => e.key == key) with
      | some e =>
        have hmem := List.mem_of_find?_eq_some hfind
        have hpe := List.find?_some hfind
        have hlen : (c.entries.eraseP (fun x => x.key == key)).length + 1
            = c.entries.length :=
          List.length_eraseP_add_one hmem hpe
        simp only [Cache.size, List.length_cons]
        omega
      | none =>
        by_cases hcap : c.capacity < c.entries.length + 1
        · simp only [List.length_cons, hcap, if_true]
          simp only [Cache.size, List.length_dropLast, List.length_cons]
          omega
        · simp only [List.length_cons, hcap, if_false]
          simp only [Cache.size, List.length_cons]
          omega
    · simp [Cache.clear, Cache.size]
  · intro hfind hsize hcap
    simp only [Cache.size] at hsize
    have hne : c.entries ≠ [] := by
      intro hnil
      rw [hnil] at hsize
      simp at hsize
      omega
    have hover : c.capacity < c.entries.length + 1 := by omega
    unfold Cache.set
    rw [hfind]
    simp only [List.length_cons, hover, if_true]
    constructor
    · exact dropLast_cons_of_ne_nil _ hne
    · simp only [Cache.size, List.length_dropLast, List.length_cons]
      omega

/-- C5 witness: a capacity-2 cache holding `"a"` (most recent) and `"b"`
(least recent); a `Get` keeps the size within capacity, and `Set` of the new
key `"c"` evicts exactly `"b"`. -/
theorem C5_witness :
    (let c : Cache := { entries := [{ key := "a", value := 1, timestamp := 0,
                                      ttl := 0, useCount := 0 },
                                    { key := "b", value := 2, timestamp := 0,
                                      ttl := 0, useCount := 0 }],
                        capacity := 2, hits := 0, misses := 0 }
     (c.set 3 "c" 9 0).entries =
        ({ key := "c", value := 9, timestamp := 3, ttl := 0, useCount := 0 }
          : CacheEntry) :: c.entries.dropLast ∧
     (c.set 3 "c" 9 0).size = c.capacity) :=
  (C5_capacity_lru _ 3 "c" 9 0).2 (by decide) (by decide) (by decide)

/-- C6, counterexample: the code's expiry test is
`TTL > 0 && now − created_at > TTL`, so an entry stored with `ttl = 0`
never expires.  For such an entry with `now − created_at = 5 > 0 = ttl` the
claim's predicate `now − created_at > ttl` holds and demands not-found, but
`Get` returns the stored value with `found = true`. -/
theorem C6_counterexample :
    (5 : Int) - 0 > 0 ∧
    ((Cache.get { entries := [{ key := "k", value := 1, timestamp := 0,
                                ttl := 0, useCount := 0 }],
                  capacity := 10, hits := 0, misses := 0 } 5 "k").1
        = some 1) := by
  constructor <;> decide

/-- C6 (amended): `Get(k)` at time `now` — if `k` is absent it returns
not-found and counts a miss, leaving the entries untouched; if `k` is present
but expired (`ttl > 0` and `now − created_at > ttl`; a non-positive `ttl`
never expires) it returns not-found, counts a miss, and removes the entry so
`Size()` decreases by one; if `k` is present and unexpired it returns the
stored value with `found = true`, promotes the entry to the front of the
recency list (most-recently-used), increments its use count, and counts a
hit. -/
theorem C6_get_behaviour :
    ∀ (c : Cache) (now : Int) (key : String),
      (c.entries.find? (fun e => e.key == key) = none →
        c.get now key = (none, { c with misses := c.misses + 1 })) ∧
      (∀ e, c.entries.find? (fun e => e.key == key) = some e →
        isExpired now e = true →
        (c.get now key).1 = none ∧
        (c.get now key).2.size + 1 = c.size ∧
        (c.get now key).2.entries = c.entries.eraseP (fun x => x.key == key) ∧
        (c.get now key).2.misses = c.misses + 1) ∧
      (∀ e, c.entries.find? (fun e => e.key == key) = some e →
        isExpired now e = false →
        (c.get now key).1 = some e.value ∧
        (c.get now key).2.entries =
          ({ e with useCount := e.useCount + 1 } : CacheEntry) ::
            c.entries.eraseP (fun x => x.key == key) ∧
        (c.get now key).2.hits = c.hits + 1) := by
  intro c now key
  refine ⟨?_, ?_, ?_⟩
  · intro h
    simp [Cache.get, h]
  · intro e he hexp
    have hmem := List.mem_of_find?_eq_some he
    have hpe := List.find?_some he
    have hlen : (c.entries.eraseP (fun x => x.key == key)).length + 1
        = c.entries.length :=
      List.length_eraseP_add_one hmem hpe
    simp [Cache.get, he, hexp, Cache.size]
    omega
  · intro e he hexp
    simp [Cache.get, he, hexp]

/-- C6 witness: a cache holding an unexpired `"k"` (ttl 10, age 5) at the
front and an expired `"x"` (ttl 2, age 5): `Get "k"` hits and promotes,
`Get "x"` misses and shrinks the cache by one. -/
theorem C6_witness :
    (let c : Cache := { entries := [{ key := "k", value := 1, timestamp := 0,
                                      ttl := 10, useCount := 3 },
                                    { key := "x", value := 2, timestamp := 0,
                                      ttl := 2, useCount := 0 }],
                        capacity := 10, hits := 0, misses := 0 }
     ((c.get 5 "k").1 = some 1 ∧
      (c.get 5 "k").2.entries =
        ({ key := "k", value := 1, timestamp := 0, ttl := 10, useCount := 4 }
          : CacheEntry) ::
          c.entries.eraseP (fun x => x.key == "k") ∧
      (c.get 5 "k").2.hits = 0 + 1) ∧
     ((c.get 5 "x").1 = none ∧
      (c.get 5 "x").2.size + 1 = c.size ∧
      (c.get 5 "x").2.entries = c.entries.eraseP (fun x => x.key == "x") ∧
      (c.get 5 "x").2.misses = 0 + 1)) :=
  ⟨(C6_get_behaviour _ 5 "k").2.2
      { key := "k", value := 1, timestamp := 0, ttl := 10, useCount := 3 }
      (by decide) (by decide),
   (C6_get_behaviour _ 5 "x").2.1
      { key := "x", value := 2, timestamp := 0, ttl := 2, useCount := 0 }
      (by decide) (by decide)⟩

/-- A concrete queue message for counterexamples and witnesses. -/
def msgEx : Message :=
  { id := "id1", type := .text, content := "hello", timestamp := 0,
    chatID := "chat1" }

/-- The empty open-batch map. -/
def emptyBatches : Batches := fun _ => none

/-- C4, counterexample: with `batchSize = 1`, the very message that creates a
new batch makes it reach the size threshold (`1 ≥ 1`), so the claim requires
an immediate flush leaving the map entry absent; the creation branch of
`addToBatch` performs no size check, so the entry stays in the map and
nothing is flushed. -/
theorem C4_counterexample :
    1 ≤ (1 : Nat) ∧
    (addToBatch 1 emptyBatches msgEx).1 MessageType.text = some [msgEx] ∧
    (addToBatch 1 emptyBatches msgEx).2 = none := by
  refine ⟨le_refl 1, ?_, ?_⟩ <;> decide

/-- C4 (amended): `addToBatch` appends the message to the open batch for its
type, creating a singleton batch if absent; a size-triggered immediate flush
(entry removed from the map, batch emitted) happens exactly when the append
lands in an already-existing batch and brings it to `batchSize` or beyond.
The creating message itself never triggers a flush, so for `batchSize = 1`
the batch waits for the next timer tick. -/
theorem C4_addToBatch_behaviour :
    ∀ (batchSize : Nat) (B : Batches) (msg : Message),
      (B msg.type = none →
        addToBatch batchSize B msg =
          ((fun t => if t = msg.type then some [msg] else B t), none)) ∧
      (∀ msgs, B msg.type = some msgs → batchSize ≤ msgs.length + 1 →
        (addToBatch batchSize B msg).1 msg.type = none ∧
        (addToBatch batchSize B msg).2 = some (msgs ++ [msg])) ∧
      (∀ msgs, B msg.type = some msgs → msgs.length + 1 < batchSize →
        addToBatch batchSize B msg =
          ((fun t => if t = msg.type then some (msgs ++ [msg]) else B t),
            none)) := by
  intro batchSize B msg
  refine ⟨?_, ?_, ?_⟩
  · intro h
    simp [addToBatch, h]
  · intro msgs h hsz
    constructor <;> simp [addToBatch, processBatch, h, hsz]
  · intro msgs h hsz
    have hnot : ¬ batchSize ≤ msgs.length + 1 := by omega
    simp [addToBatch, h, hnot]

/-- C4 witness: with `batchSize = 5` a first text message opens a singleton
batch; with `batchSize = 2` a second text message arriving at an open
singleton batch flushes `[msgEx, msgEx]` immediately and empties the entry. -/
theorem C4_witness :
    (addToBatch 5 emptyBatches msgEx =
      ((fun t => if t = msgEx.type then some [msgEx] else emptyBatches t),
        none)) ∧
    ((addToBatch 2 (fun t => if t = MessageType.text then some [msgEx]
        else none) msgEx).1 msgEx.type = none ∧
     (addToBatch 2 (fun t => if t = MessageType.text then some [msgEx]
        else none) msgEx).2 = some ([msgEx] ++ [msgEx])) :=
  ⟨(C4_addToBatch_behaviour 5 emptyBatches msgEx).1 rfl,
   (C4_addToBatch_behaviour 2
      (fun t => if t = MessageType.text then some [msgEx] else none)
      msgEx).2.1 [msgEx] (by decide) (by decide)⟩

theorem flushedOf_append (t : MessageType)
    (a b : List (MessageType × List Message)) :
    flushedOf t (a ++ b) = flushedOf t a ++ flushedOf t b := by
  simp [flushedOf, List.filter_append]

/-- Threading `processBatch` over any key list moves each visited open batch
into the flushed log without changing, per type, the concatenation of flushed
and open messages. -/
theorem processBatchesAux_measure :
    ∀ (l : List MessageType) (B : Batches)
      (acc : List (MessageType × List Message)) (t : MessageType),
      flushedOf t (processBatchesAux l B acc).2 ++
          ((processBatchesAux l B acc).1 t).getD []
        = flushedOf t acc ++ (B t).getD [] := by
  intro l
  induction l with
  | nil => intro B acc t; simp [processBatchesAux]
  | cons u rest ih =>
    intro B acc t
    simp only [processBatchesAux]
    rw [ih]
    by_cases hut : u = t
    · subst hut
      unfold processBatch
      cases hBu : B u with
      | none => simp [hBu]
      | some msgs =>
        by_cases hlen : 0 < msgs.length
        · simp [hBu, hlen, flushedOf_append, flushedOf]
        · have hmsgs : msgs = [] := by
            cases msgs with
            | nil => rfl
            | cons a b => simp at hlen
          simp [hBu, hlen, hmsgs]
    · unfold processBatch
      cases hBu : B u with
      | none => simp
      | some msgs =>
        by_cases hlen : 0 < msgs.length
        · have hne : ¬ t = u := fun hh => hut hh.symm
          simp [hBu, hlen, flushedOf_append, flushedOf, hut, hne]
        · simp [hBu, hlen]

/-- One `batchProcessor` iteration appends, per type, exactly the arrivals of
that type to the flushed-plus-open message sequence. -/
theorem queueStep_measure (batchSize : Nat) (s : QueueState) (e : QueueEvent)
    (t : MessageType) :
    flushedOf t (queueStep batchSize s e).flushed ++
        ((queueStep batchSize s e).batches t).getD []
      = (flushedOf t s.flushed ++ (s.batches t).getD []) ++ arrivalsOf t [e] := by
  cases e with
  | tick =>
    have h := processBatchesAux_measure allMessageTypes s.batches [] t
    simp only [queueStep, processBatches]
    rw [flushedOf_append, List.append_assoc, h]
    simp [arrivalsOf, flushedOf]
  | arrive m =>
    simp only [queueStep]
    cases hB : s.batches m.type with
    | none =>
      simp only [addToBatch, hB]
      by_cases hmt : m.type = t
      · subst hmt
        simp [flushedOf_append, flushedOf, arrivalsOf, hB]
      · have hne : ¬ t = m.type := fun hh => hmt hh.symm
        simp [flushedOf_append, flushedOf, arrivalsOf, hmt, hne]
    | some msgs =>
      by_cases hsz : batchSize ≤ msgs.length + 1
      · simp only [addToBatch, hB, List.length_append, List.length_cons,
          List.length_nil, hsz, if_true, processBatch]
        by_cases hmt : m.type = t
        · subst hmt
          simp [flushedOf_append, flushedOf, arrivalsOf, hB]
        · have hne : ¬ t = m.type := fun hh => hmt hh.symm
          simp [flushedOf_append, flushedOf, arrivalsOf, hmt, hne]
      · simp only [addToBatch, hB, List.length_append, List.length_cons,
          List.length_nil, hsz, if_false]
        by_cases hmt : m.type = t
        · subst hmt
          simp [flushedOf_append, flushedOf, arrivalsOf, hB]
        · have hne : ¬ t = m.type := fun hh => hmt hh.symm
          simp [flushedOf_append, flushedOf, arrivalsOf, hmt, hne]

theorem queueFoldl_measure (batchSize : Nat) :
    ∀ (events : List QueueEvent) (s : QueueState) (t : MessageType),
      flushedOf t ((events.foldl (queueStep batchSize) s).flushed) ++
          (((events.foldl (queueStep batchSize) s).batches t).getD [])
        = (flushedOf t s.flushed ++ (s.batches t).getD []) ++
            arrivalsOf t events := by
  intro events
  induction events with
  | nil => intro s t; simp [arrivalsOf]
  | cons e es ih =>
    intro s t
    have hsplit : arrivalsOf t (e :: es)
        = arrivalsOf t [e] ++ arrivalsOf t es := by
      simp only [arrivalsOf, show e :: es = [e] ++ es from rfl,
        List.filterMap_append]
    rw [List.foldl_cons, ih, queueStep_measure, hsplit, List.append_assoc]

/-- C8: (i) `processBatch` on an open nonempty batch removes its map entry
and hands its complete message list to the worker pool in the same atomic
(one-lock) step; (ii) over any event sequence, for every message type the
flushed batches followed by the open batch list exactly the arrivals of that
type in arrival order — so no message is dropped, none is handed to two
flushes, and each batch preserves arrival order. -/
theorem C8_flush_atomic_ordered :
    (∀ (B : Batches) (t : MessageType) (msgs : List Message),
      B t = some msgs → msgs ≠ [] →
      (processBatch B t).1 t = none ∧ (processBatch B t).2 = some msgs) ∧
    (∀ (batchSize : Nat) (events : List QueueEvent) (t : MessageType),
      flushedOf t (queueRun batchSize events).flushed ++
          ((queueRun batchSize events).batches t).getD []
        = arrivalsOf t events) := by
  constructor
  · intro B t msgs hB hne
    have hlen : 0 < msgs.length := List.length_pos.mpr hne
    constructor <;> simp [processBatch, hB, hlen]
  · intro batchSize events t
    have h := queueFoldl_measure batchSize events initQueueState t
    simpa [queueRun, initQueueState, flushedOf] using h

/-- C8 witness: flushing an open singleton text batch empties its entry and
emits exactly that batch. -/
theorem C8_witness :
    (processBatch (fun t => if t = MessageType.text then some [msgEx]
        else none) MessageType.text).1 MessageType.text = none ∧
    (processBatch (fun t => if t = MessageType.text then some [msgEx]
        else none) MessageType.text).2 = some [msgEx] :=
  C8_flush_atomic_ordered.1
    (fun t => if t = MessageType.text then some [msgEx] else none)
    MessageType.text [msgEx] (by decide) (by decide)

/-- C9: `Allow(sender_id)` for a never-seen sender stores a fresh bucket and,
when `burst ≥ 1`, returns `true` having consumed one token of the full burst;
it is a total boolean function (no error outcome), it touches no other
sender's bucket, and a bucket without an available token yields `false` with
no token consumed. -/
theorem C9_allow_fresh_bucket :
    ∀ (rl : RateLimiter) (now : ℚ) (userID : String),
      (rl.visitors userID = none →
        (1 ≤ rl.burst →
          (rl.Allow now userID).1 = true ∧
          (rl.Allow now userID).2.visitors userID =
            some { tokens := (rl.burst : ℚ) - 1, lastTime := now })) ∧
      (∀ uid, uid ≠ userID →
        (rl.Allow now userID).2.visitors uid = rl.visitors uid) ∧
      (∀ l, rl.visitors userID = some l →
        l.advance rl.limit rl.burst now < 1 →
        (rl.Allow now userID).1 = false ∧
        (rl.Allow now userID).2.visitors userID = some l) := by
  intro rl now userID
  refine ⟨?_, ?_, ?_⟩
  · intro h hb
    have hb' : (1 : ℚ) ≤ (rl.burst : ℚ) := by exact_mod_cast hb
    have hadv : (freshLimiter rl.burst now).advance rl.limit rl.burst now
        = (rl.burst : ℚ) := by
      simp [Limiter.advance, freshLimiter]
    constructor <;>
      simp [RateLimiter.Allow, h, Limiter.allowAt, hadv, hb']
  · intro uid hne
    simp [RateLimiter.Allow, hne]
  · intro l hl hlt
    have hnot : ¬ (1 ≤ l.advance rl.limit rl.burst now) := not_le.mpr hlt
    constructor <;> simp [RateLimiter.Allow, hl, Limiter.allowAt, hnot]

/-- C9 witness: a never-seen sender `"alice"` on the bot's configured
limiter (rate 0.5/s, burst 1) is admitted and left with an empty bucket. -/
theorem C9_witness :
    (RateLimiter.Allow ⟨fun _ => none, 1 / 2, 1⟩ 0 "alice").1 = true ∧
    (RateLimiter.Allow ⟨fun _ => none, 1 / 2, 1⟩ 0 "alice").2.visitors "alice"
      = some { tokens := ((1 : ℤ) : ℚ) - 1, lastTime := 0 } :=
  ((C9_allow_fresh_bucket ⟨fun _ => none, 1 / 2, 1⟩ 0 "alice").1 rfl)
    (by norm_num)
